import Mathlib

/-!
Verification development for the MCP text-command server and client
(`mcp_server/server.py`, `mcp_server/client.py`).

Protocol data is modelled as `List Char` (the decoded UTF-8 text of the
byte stream).  Python's `str.upper` is modelled by `Char.toUpper`
(the keywords involved are ASCII).  Each definition carries a comment
naming the source lines it embeds.
-/

/-- Python whitespace, as used by `str.strip()` (ASCII range). -/
def pyIsSpace (c : Char) : Bool :=
  c = ' ' || c = '\t' || c = '\n' || c = '\r' || c = '\x0b' || c = '\x0c'

/-- Python `s.strip()`: drop leading and trailing whitespace. -/
def pyStrip (s : List Char) : List Char :=
  ((s.dropWhile pyIsSpace).reverse.dropWhile pyIsSpace).reverse

/-- Python `s.upper()` (modelled for ASCII keywords). -/
def pyUpper (s : List Char) : List Char :=
  s.map Char.toUpper

/-- Method `_send_response` (server.py lines 126-131): transmit `f"{message}\n"`.
The value is the exact byte sequence put on the wire for one response. -/
def sendLine (msg : List Char) : List Char :=
  msg ++ ['\n']

/-! ## Client-side line framer (client.py `_receive_messages`, lines 36-60) -/

/-- Python `buffer.split('\n', 1)` when `'\n' in buffer`: `some (line, rest)`
with `line` the text before the first newline and `rest` the text after it;
`none` when the buffer holds no newline. -/
def splitFirstNL : List Char → Option (List Char × List Char)
  | [] => none
  | c :: rest =>
    if c = '\n' then some ([], rest)
    else (splitFirstNL rest).map fun p => (c :: p.1, p.2)

/-- The client's `while '\n' in buffer: line, buffer = buffer.split('\n', 1)`
loop (lines 49-51), with an explicit iteration bound: each split removes the
extracted line and its newline from the buffer, so `buf.length` iterations
always suffice (see `drainBuffer`).  Returns the extracted lines in order
and the final buffer. -/
def drainFuel : Nat → List Char → List (List Char) × List Char
  | 0, buf => ([], buf)
  | fuel + 1, buf =>
    match splitFirstNL buf with
    | none => ([], buf)
    | some p => ((drainFuel fuel p.2).1.cons p.1, (drainFuel fuel p.2).2)

/-- Drain every complete newline-terminated line from the buffer. -/
def drainBuffer (buf : List Char) : List (List Char) × List Char :=
  drainFuel buf.length buf

/-- One iteration of the receive loop body on a non-empty read (lines 47-51):
`buffer += data`, then drain complete lines; the state is (lines printed so
far, buffer). -/
def receiveStep (st : List (List Char) × List Char) (chunk : List Char) :
    List (List Char) × List Char :=
  (st.1 ++ (drainBuffer (st.2 ++ chunk)).1, (drainBuffer (st.2 ++ chunk)).2)

/-- Method `_receive_messages` over a finite sequence of received chunks, starting
from the empty buffer (`buffer = ""`, line 38). -/
def receiveMessages (chunks : List (List Char)) : List (List Char) × List Char :=
  chunks.foldl receiveStep ([], [])

/-! ## Server-side command processing (server.py `_handle_client`, lines 80-124) -/

/-- Python `data.split(' ', 1)` (line 98): keyword before the first space,
and `some` remainder after it (which may itself contain spaces), or `none`
when the line has no space. -/
def splitFirstSpace : List Char → List Char × Option (List Char)
  | [] => ([], none)
  | c :: rest =>
    if c = ' ' then ([], some rest)
    else ((splitFirstSpace rest).1.cons c, (splitFirstSpace rest).2)

/-- Python `command = parts[0].upper()` (line 99). -/
def commandOf (data : List Char) : List Char :=
  pyUpper (splitFirstSpace data).1

/-- Python `arg = parts[1] if len(parts) > 1 else ''` (line 100). -/
def argOf (data : List Char) : List Char :=
  (splitFirstSpace data).2.getD []

/-- The `help_text` literal of `_handle_help` (lines 154-160). -/
def helpTextRaw : List Char :=
  "\nAvailable Commands:\n  HELLO [name]  - Greet the server\n  ECHO <text>   - Echo back the provided text\n  EXIT          - Disconnect from the server\n  HELP          - Show this help message\n".data

/-- Python `help_text.strip()` (line 161). -/
def helpText : List Char :=
  pyStrip helpTextRaw

/-- A handler's effect: the response lines written to the socket, and
whether the handler closed the client socket itself. -/
abbrev HandlerEffect := List (List Char) × Bool

/-- Handler `_handle_hello` (lines 134-137). -/
def handleHello (arg : List Char) : HandlerEffect :=
  ([sendLine ("Hello, ".data ++ (if arg = [] then ("Guest".data) else arg) ++
      "! Welcome to MCP Server.".data)], false)

/-- Handler `_handle_echo` (lines 139-144). -/
def handleEcho (arg : List Char) : HandlerEffect :=
  if arg = [] then ([sendLine ("ECHO: You didn't provide any text to echo.".data)], false)
  else ([sendLine ("ECHO: ".data ++ arg)], false)

/-- Handler `_handle_exit` (lines 146-150): send `Goodbye!`, then close the socket if
it is registered.  `inRegistry` is the value of
`client_socket in self.clients.values()`; during the serving loop it is
`true`, because `_handle_client` registers the socket on entry (line 82) and
removes it only in its `finally` block (lines 118-119). -/
def handleExit (arg : List Char) (inRegistry : Bool) : HandlerEffect :=
  ([sendLine ("Goodbye!".data)], inRegistry)

/-- Handler `_handle_help` (lines 152-161). -/
def handleHelp (arg : List Char) : HandlerEffect :=
  ([sendLine helpText], false)

/-- Lines 102-105: look the uppercased keyword up in `command_handlers`
(keys `HELLO`, `ECHO`, `EXIT`, `HELP`, lines 24-29) and call the handler,
or send `ERROR: Unknown command: <KEYWORD>` when absent. -/
def dispatchCommand (command arg : List Char) : HandlerEffect :=
  if command = "HELLO".data then handleHello arg
  else if command = "ECHO".data then handleEcho arg
  else if command = "EXIT".data then handleExit arg true
  else if command = "HELP".data then handleHelp arg
  else ([sendLine ("ERROR: Unknown command: ".data ++ command)], false)

/-- Lines 98-105 applied to one (already stripped, non-empty) `data` value. -/
def processData (data : List Char) : HandlerEffect :=
  dispatchCommand (commandOf data) (argOf data)

/-- The serving loop of `_handle_client` (lines 88-112) over a finite
sequence of `recv` results: each chunk is decoded and stripped (line 91);
an empty result breaks the loop (lines 92-93); otherwise the stripped chunk
is processed as one command (lines 98-105).  When a handler closed the
socket (EXIT), the next `recv` raises, the attempted `ERROR:` response on
the closed socket is swallowed by `_send_response`, and the loop breaks
(lines 109-112), so nothing further is transmitted.  Returns the response
lines successfully written, in order. -/
def serveLoop : List (List Char) → List (List Char)
  | [] => []
  | chunk :: rest =>
    if pyStrip chunk = [] then []
    else if (processData (pyStrip chunk)).2 then (processData (pyStrip chunk)).1
    else (processData (pyStrip chunk)).1 ++ serveLoop rest

/-- The Connection Handler as the specification describes it, for comparison
with `serveLoop`: buffer the incoming bytes per connection, extract every
complete newline-terminated line, and dispatch each extracted line as one
command in order, keeping the unterminated tail buffered.  Stated from the
spec's words (§4.3 SERVING); the source handler is `serveLoop`. -/
def framedServe (chunks : List (List Char)) : List (List Char) :=
  (((chunks.foldl receiveStep ([], [])).1).map fun line => (processData line).1).flatten

/-! ## Spec reference responses (spec §4.2 table), for comparison in C6 -/

/-- Spec table row for HELLO: default name `Guest`. -/
def specHelloResponse (arg : List Char) : List Char :=
  if arg = [] then ("Hello, Guest! Welcome to MCP Server.".data)
  else ("Hello, ".data) ++ arg ++ "! Welcome to MCP Server.".data

/-- Spec table row for ECHO. -/
def specEchoResponse (arg : List Char) : List Char :=
  if arg = [] then ("ECHO: You didn't provide any text to echo.".data)
  else ("ECHO: ".data) ++ arg

/-! ## Connection registry (server.py `self.clients`, a dict keyed by peer address) -/

/-- Peer address `(host, port)`; the host is an opaque identifier. -/
abbrev Addr := Nat × Nat

/-- A socket handle, as an opaque identifier. -/
abbrev Handle := Nat

/-- The dict `self.clients : Dict[tuple, socket.socket]` (line 22), as an association
list with pairwise-distinct keys maintained by `registryInsert`. -/
abbrev Registry := List (Addr × Handle)

/-- Python `addr in clients` (dict key membership). -/
def registryMem (r : Registry) (a : Addr) : Bool :=
  r.any fun p => decide (p.1 = a)

/-- Python `self.clients[client_address] = client_socket` (line 82): dict
assignment overwrites an existing key, otherwise appends. -/
def registryInsert (r : Registry) (a : Addr) (h : Handle) : Registry :=
  if registryMem r a then r.map fun p => if p.1 = a then (a, h) else p
  else r ++ [(a, h)]

/-- The cleanup of `_handle_client` (lines 118-119):
`if client_address in self.clients: del self.clients[client_address]`. -/
def registryRemove (r : Registry) (a : Addr) : Registry :=
  if registryMem r a then r.filter fun p => decide (p.1 ≠ a) else r

/-- The shutdown path of `MCPServer.stop` (lines 71-77): close every
registered handle, then `self.clients.clear()`.  Returns the handles on
which `close` was called and the registry afterwards. -/
def closeAll (r : Registry) : List Handle × Registry :=
  (r.map fun p => p.2, [])

/-! ## Startup and bind retry (server.py `MCPServer.start` lines 31-59, `main` lines 164-197) -/

/-- A Python exception value relevant to startup. -/
inductive PyExc
  | osError (msg : List Char)
deriving DecidableEq

/-- The `OSError` message for a bind on an occupied address. -/
def addrInUseMsg : List Char :=
  "Address already in use".data

/-- Python `needle in haystack` substring containment. -/
def containsSub (needle : List Char) : List Char → Bool
  | [] => needle.isPrefixOf []
  | c :: rest => needle.isPrefixOf (c :: rest) || containsSub needle rest

/-- Python `self.server_socket.bind((self.host, self.port))` (line 36): raises
`OSError("Address already in use")` when the port is occupied.  `portInUse`
is the environment's oracle saying which ports are occupied. -/
def bindSocket (portInUse : Nat → Bool) (port : Nat) : Except PyExc Unit :=
  if portInUse port then .error (.osError addrInUseMsg) else .ok ()

/-- Method `MCPServer.start` (lines 31-59).  Its whole body is inside
`try: ... except Exception as e: logging.error(f"Server error: {e}")`
(lines 33, 56-57), so a bind failure is caught and logged INSIDE `start`
and never propagates to the caller; `start` then returns normally after
`finally: self.stop()`.  On a successful bind the accept loop runs (not
relevant to startup) and `start` again returns normally.  The result is
the list of error messages logged; no exception ever escapes. -/
def serverStart (portInUse : Nat → Bool) (port : Nat) : Except PyExc (List (List Char)) :=
  match bindSocket portInUse port with
  | .error (.osError m) => .ok ["Server error: ".data ++ m]
  | .ok () => .ok []

/-- Outcome of `main` (lines 164-197): process exit code, number of
`server.start()` attempts made, and the port of the last attempt. -/
structure MainResult where
  exitCode : Nat
  attempts : Nat
  finalPort : Nat
deriving DecidableEq, Repr

/-- The loop `for attempt in range(max_attempts)` (lines 173-195), with `fuel` the
iterations remaining (initially `max_attempts = 5`).  The body runs
`server.start()` and `break`s when it returns (lines 177-178), so the loop
returns exit code 0; had an `OSError` escaped, the `except OSError` arm
(lines 179-185) would retry on `port + 1` while its message contains
`Address already in use` and `attempt < max_attempts - 1` (i.e. iterations
remain), else return 1. -/
def mainLoop (portInUse : Nat → Bool) : Nat → Nat → Nat → MainResult
  | 0, port, used => ⟨0, used, port⟩
  | fuel + 1, port, used =>
    match serverStart portInUse port with
    | .ok _ => ⟨0, used + 1, port⟩
    | .error (.osError m) =>
      if containsSub addrInUseMsg m && decide (fuel ≠ 0) then
        mainLoop portInUse fuel (port + 1) (used + 1)
      else ⟨1, used + 1, port⟩

/-- Function `main` (lines 164-197): `port = 5001`, `max_attempts = 5`. -/
def serverMain (portInUse : Nat → Bool) : MainResult :=
  mainLoop portInUse 5 5001 0

/-! ## Helper lemmas -/

theorem splitFirstNL_recombine : ∀ (buf : List Char) (p : List Char × List Char),
    splitFirstNL buf = some p → p.1 ++ '\n' :: p.2 = buf := by
  intro buf
  induction buf with
  | nil => intro p h; simp [splitFirstNL] at h
  | cons c rest ih =>
    intro p h
    by_cases hc : c = '\n'
    · simp [splitFirstNL, hc] at h
      subst hc
      rw [← h]
      simp
    · simp only [splitFirstNL, if_neg hc, Option.map_eq_some'] at h
      obtain ⟨q, hq, hpq⟩ := h
      have := ih q hq
      rw [← hpq]
      simpa using congrArg (c :: ·) this

theorem drainFuel_recombine (fuel : Nat) : ∀ buf : List Char,
    ((drainFuel fuel buf).1.map fun l => l ++ ['\n']).flatten ++ (drainFuel fuel buf).2 = buf := by
  induction fuel with
  | zero => intro buf; simp [drainFuel]
  | succ n ih =>
    intro buf
    simp only [drainFuel]
    cases hs : splitFirstNL buf with
    | none => simp
    | some p =>
      have h1 := splitFirstNL_recombine buf p hs
      have h2 := ih p.2
      simp only [List.cons_eq_cons, List.map_cons, List.flatten_cons, List.append_assoc]
      rw [h2, ← h1]
      simp

theorem drainBuffer_recombine (buf : List Char) :
    ((drainBuffer buf).1.map fun l => l ++ ['\n']).flatten ++ (drainBuffer buf).2 = buf :=
  drainFuel_recombine buf.length buf

theorem receiveStep_transcript (st : List (List Char) × List Char) (c : List Char) :
    ((receiveStep st c).1.map fun l => l ++ ['\n']).flatten ++ (receiveStep st c).2
      = ((st.1.map fun l => l ++ ['\n']).flatten ++ st.2) ++ c := by
  simp only [receiveStep, List.map_append, List.flatten_append, List.append_assoc]
  rw [drainBuffer_recombine]

theorem receiveStep_fold (chunks : List (List Char)) :
    ∀ st : List (List Char) × List Char,
      ((chunks.foldl receiveStep st).1.map fun l => l ++ ['\n']).flatten
          ++ (chunks.foldl receiveStep st).2
        = ((st.1.map fun l => l ++ ['\n']).flatten ++ st.2) ++ chunks.flatten := by
  induction chunks with
  | nil => intro st; simp
  | cons c cs ih =>
    intro st
    simp only [List.foldl_cons, List.flatten_cons]
    rw [ih, receiveStep_transcript]
    simp [List.append_assoc]

/-! ## Claim theorems -/

/-- C3: for every sequence of byte chunks fed to the Line Framer
(`_receive_messages`), the concatenation of all yielded lines with their
terminating newlines reinserted, followed by the final unterminated
remainder left in the buffer, equals the concatenation of the input
chunks. -/
theorem mcp_c3_framer_conservation (chunks : List (List Char)) :
    ((receiveMessages chunks).1.map fun l => l ++ ['\n']).flatten
        ++ (receiveMessages chunks).2
      = chunks.flatten := by
  unfold receiveMessages
  rw [receiveStep_fold]
  simp

/-- C6: the dispatcher's responses for HELLO and ECHO equal the spec table:
`_handle_hello` with empty argument writes `Hello, Guest! Welcome to MCP
Server.` and with argument `name` writes `Hello, <name>! Welcome to MCP
Server.`; `_handle_echo` with empty argument writes `ECHO: You didn't
provide any text to echo.` and with argument `text` writes `ECHO: <text>`;
each response is terminated by a newline before transmission. -/
theorem mcp_c6_hello_echo_match_spec (arg : List Char) :
    (handleHello arg).1 = [specHelloResponse arg ++ ['\n']] ∧
    (handleEcho arg).1 = [specEchoResponse arg ++ ['\n']] := by
  by_cases h : arg = []
  · subst h
    exact ⟨by decide, by decide⟩
  · simp [handleHello, handleEcho, specHelloResponse, specEchoResponse, sendLine, h]

/-- C7: only the first space separates the keyword from the argument, so
the argument retains any further spaces verbatim, and keyword matching is
case-insensitive: two command lines with the same argument whose keywords
agree after uppercasing produce identical dispatch behavior. -/
theorem mcp_c7_split_and_case_insensitive :
    (∀ (k a : List Char), ' ' ∉ k → splitFirstSpace (k ++ ' ' :: a) = (k, some a)) ∧
    (∀ d1 d2 : List Char,
        pyUpper (splitFirstSpace d1).1 = pyUpper (splitFirstSpace d2).1 →
        (splitFirstSpace d1).2 = (splitFirstSpace d2).2 →
        processData d1 = processData d2) := by
  constructor
  · intro k a hk
    induction k with
    | nil => simp [splitFirstSpace]
    | cons c k ih =>
      have hc : ¬ c = ' ' := by
        intro he
        exact hk (by rw [he]; exact List.mem_cons_self _ _)
      simp only [List.cons_append, splitFirstSpace, if_neg hc, List.append_eq]
      rw [ih fun hm => hk (List.mem_cons_of_mem c hm)]
  · intro d1 d2 hk ha
    unfold processData commandOf argOf
    rw [hk, ha]

theorem mcp_c7_witness :
    splitFirstSpace ("ECHO".data ++ ' ' :: "a b".data) = ("ECHO".data, some ("a b".data)) ∧
    processData ("echo A b".data) = processData ("ECHO A b".data) :=
  ⟨mcp_c7_split_and_case_insensitive.1 ("ECHO".data) ("a b".data) (by decide),
   mcp_c7_split_and_case_insensitive.2 ("echo A b".data) ("ECHO A b".data) (by decide) (by decide)⟩

/-- C1 (counterexample): the claim that the server's Connection Handler
frames its byte stream into newline-terminated commands is false: on the
single read `"ECHO a\nECHO b\n"` the handler of the source dispatches ONE
command (the whole stripped chunk), while line framing would dispatch two
ECHO commands. -/
theorem mcp_c1_counterexample :
    serveLoop ["ECHO a\nECHO b\n".data] ≠ framedServe ["ECHO a\nECHO b\n".data] := by
  decide

/-- C1 (amended): the server's Connection Handler performs no line framing:
each read whose stripped text is non-empty (and whose command does not close
the socket) is dispatched as exactly one command — the whole chunk stripped
of leading and trailing whitespace — in the order the chunks were read; a
read holding several newline-terminated commands is treated as a single
command and an unterminated fragment is dispatched immediately, never
buffered. -/
theorem mcp_c1_one_command_per_read (chunks : List (List Char))
    (h : ∀ c ∈ chunks, pyStrip c ≠ [] ∧ (processData (pyStrip c)).2 = false) :
    serveLoop chunks = (chunks.map fun c => (processData (pyStrip c)).1).flatten := by
  induction chunks with
  | nil => rfl
  | cons c cs ih =>
    obtain ⟨h1, h2⟩ := h c (List.mem_cons_self c cs)
    simp only [serveLoop, List.map_cons, List.flatten_cons]
    rw [if_neg h1, h2]
    simp only [Bool.false_eq_true, if_false]
    rw [ih fun d hd => h d (List.mem_cons_of_mem c hd)]

theorem mcp_c1_witness :
    serveLoop ["ECHO a\nECHO b\n".data] = ["ECHO: a\nECHO b\n".data] := by
  have h := mcp_c1_one_command_per_read ["ECHO a\nECHO b\n".data] (by decide)
  rw [h]
  decide

/-- C4: for every received command whose case-normalized keyword is none of
HELLO, ECHO, EXIT, HELP, the server writes back exactly
`ERROR: Unknown command: <KEYWORD>` (keyword uppercased) terminated by a
newline, and the connection stays open: the loop continues with the
remaining reads. -/
theorem mcp_c4_unknown_command (chunk : List Char) (rest : List (List Char))
    (hne : pyStrip chunk ≠ [])
    (h1 : commandOf (pyStrip chunk) ≠ "HELLO".data)
    (h2 : commandOf (pyStrip chunk) ≠ "ECHO".data)
    (h3 : commandOf (pyStrip chunk) ≠ "EXIT".data)
    (h4 : commandOf (pyStrip chunk) ≠ "HELP".data) :
    serveLoop (chunk :: rest)
      = sendLine ("ERROR: Unknown command: ".data ++ commandOf (pyStrip chunk))
          :: serveLoop rest := by
  have hp : processData (pyStrip chunk)
      = ([sendLine ("ERROR: Unknown command: ".data ++ commandOf (pyStrip chunk))], false) := by
    unfold processData dispatchCommand
    rw [if_neg h1, if_neg h2, if_neg h3, if_neg h4]
  simp only [serveLoop]
  rw [if_neg hne, hp]
  simp

theorem mcp_c4_witness :
    serveLoop ["FOO bar\n".data, "HELLO Ann\n".data]
      = ["ERROR: Unknown command: FOO\n".data,
         "Hello, Ann! Welcome to MCP Server.\n".data] := by
  have h := mcp_c4_unknown_command ("FOO bar\n".data) ["HELLO Ann\n".data]
    (by decide) (by decide) (by decide) (by decide) (by decide)
  rw [h]
  decide

/-- C5: when the handler dispatches the EXIT command (argument ignored), it
writes `Goodbye!` terminated by a newline and closes the connection from the
server side (`(processData _).2 = true` records the `client_socket.close()`
of `_handle_exit`), so nothing further is transmitted on that socket and a
subsequent client-side `recv` yields EOF. -/
theorem mcp_c5_exit_goodbye_close (chunk : List Char) (rest : List (List Char))
    (hexit : commandOf (pyStrip chunk) = "EXIT".data) :
    (processData (pyStrip chunk)).2 = true ∧
    serveLoop (chunk :: rest) = [sendLine ("Goodbye!".data)] := by
  have hne : pyStrip chunk ≠ [] := by
    intro h0
    rw [h0] at hexit
    exact absurd hexit (by decide)
  have hp : processData (pyStrip chunk) = ([sendLine ("Goodbye!".data)], true) := by
    unfold processData dispatchCommand
    rw [hexit]
    rw [if_neg (by decide), if_neg (by decide), if_pos rfl]
    rfl
  refine ⟨by rw [hp], ?_⟩
  simp only [serveLoop]
  rw [if_neg hne, hp]
  rfl

theorem mcp_c5_witness :
    (processData (pyStrip ("exit now\n".data))).2 = true ∧
    serveLoop ["exit now\n".data, "HELLO\n".data] = [sendLine ("Goodbye!".data)] :=
  mcp_c5_exit_goodbye_close ("exit now\n".data) ["HELLO\n".data] (by decide)

/-- C10: a received chunk that is non-empty on the wire but consists only of
whitespace strips to the empty string, so the handler treats it exactly like
an empty read: it exits the serving loop (dispatching nothing, processing no
further reads, after which the `finally` block closes the connection) — the
same behavior as an empty read. -/
theorem mcp_c10_whitespace_chunk_closes (chunk : List Char) (rest : List (List Char))
    (hne : chunk ≠ []) (hws : ∀ c ∈ chunk, pyIsSpace c = true) :
    serveLoop (chunk :: rest) = [] ∧
    serveLoop (chunk :: rest) = serveLoop ([] :: rest) := by
  have hdrop : chunk.dropWhile pyIsSpace = [] := List.dropWhile_eq_nil_iff.mpr hws
  have hstrip : pyStrip chunk = [] := by
    unfold pyStrip
    rw [hdrop]
    rfl
  constructor
  · simp [serveLoop, hstrip]
  · have h0 : serveLoop ([] :: rest) = [] := by
      simp only [serveLoop]
      rw [if_pos (show pyStrip [] = [] from rfl)]
    rw [h0]
    simp [serveLoop, hstrip]

theorem mcp_c10_witness :
    serveLoop [['\n'], "HELLO\n".data] = [] ∧
    serveLoop [['\n'], "HELLO\n".data] = serveLoop ([] :: ["HELLO\n".data]) :=
  mcp_c10_whitespace_chunk_closes ['\n'] ["HELLO\n".data] (by decide) (by decide)

theorem registryMem_false_keys {r : Registry} {a : Addr}
    (h : registryMem r a = false) : ∀ p ∈ r, p.1 ≠ a := by
  intro p hp
  unfold registryMem at h
  rw [List.any_eq_false] at h
  simpa using h p hp

theorem mem_registryInsert {r : Registry} {a : Addr} {hd : Handle} {p : Addr × Handle}
    (hp : p ∈ registryInsert r a hd) : p ∈ r ∨ p.1 = a := by
  unfold registryInsert at hp
  by_cases hm : registryMem r a = true
  · rw [if_pos hm] at hp
    obtain ⟨q, hq, hfq⟩ := List.mem_map.mp hp
    by_cases hqa : q.1 = a
    · right
      rw [← hfq, if_pos hqa]
    · left
      rw [← hfq, if_neg hqa]
      exact hq
  · rw [if_neg hm] at hp
    rcases List.mem_append.mp hp with h | h
    · exact Or.inl h
    · right
      rw [List.mem_singleton.mp h]

theorem foldl_registryRemove_nil (addrs : List Addr) :
    ∀ r : Registry, (∀ p ∈ r, p.1 ∈ addrs) → addrs.foldl registryRemove r = [] := by
  induction addrs with
  | nil =>
    intro r h
    cases r with
    | nil => rfl
    | cons q qs => exact absurd (h q (List.mem_cons_self q qs)) (List.not_mem_nil _)
  | cons a as ih =>
    intro r h
    simp only [List.foldl_cons]
    apply ih
    intro p hp
    unfold registryRemove at hp
    by_cases hm : registryMem r a = true
    · rw [if_pos hm] at hp
      have hmem := List.mem_filter.mp hp
      have hpa : p.1 ≠ a := by simpa using hmem.2
      rcases List.mem_cons.mp (h p hmem.1) with he | hi
      · exact absurd he hpa
      · exact hi
    · rw [if_neg hm] at hp
      have hpa : p.1 ≠ a :=
        registryMem_false_keys ((Bool.not_eq_true _).mp hm) p hp
      rcases List.mem_cons.mp (h p hp) with he | hi
      · exact absurd he hpa
      · exact hi

theorem foldl_registryInsert_keys (conns : List (Addr × Handle)) :
    ∀ (r : Registry) (p : Addr × Handle),
      p ∈ conns.foldl (fun r c => registryInsert r c.1 c.2) r →
      p ∈ r ∨ p.1 ∈ conns.map fun c => c.1 := by
  induction conns with
  | nil => intro r p hp; exact Or.inl hp
  | cons c cs ih =>
    intro r p hp
    simp only [List.foldl_cons] at hp
    rcases ih _ p hp with h | h
    · rcases mem_registryInsert h with h' | h'
      · exact Or.inl h'
      · right
        simp only [List.map_cons, List.mem_cons]
        exact Or.inl h'
    · right
      simp only [List.map_cons, List.mem_cons]
      exact Or.inr h

/-- C8: registry removal is idempotent — removing a peer address absent from
the registry is a no-op (the guarded `del` of lines 118-119) — and after
every connected client has disconnected, in any order covering every
accepted peer, the registry is empty; `closeAll` on the empty registry
(the shutdown path, lines 71-77) closes nothing and leaves the registry
empty. -/
theorem mcp_c8_registry_lifecycle (conns : List (Addr × Handle)) (removals : List Addr)
    (hcover : ∀ c ∈ conns, c.1 ∈ removals) :
    (∀ (r : Registry) (a : Addr), registryMem r a = false → registryRemove r a = r) ∧
    removals.foldl registryRemove
        (conns.foldl (fun r c => registryInsert r c.1 c.2) []) = [] ∧
    closeAll [] = ([], []) := by
  refine ⟨?_, ?_, rfl⟩
  · intro r a h
    unfold registryRemove
    rw [if_neg (by simp [h])]
  · apply foldl_registryRemove_nil
    intro p hp
    rcases foldl_registryInsert_keys conns [] p hp with h | h
    · exact absurd h (List.not_mem_nil _)
    · obtain ⟨c, hc, hce⟩ := List.mem_map.mp h
      rw [← hce]
      exact hcover c hc

theorem mcp_c8_witness :
    (∀ (r : Registry) (a : Addr), registryMem r a = false → registryRemove r a = r) ∧
    ([((2, 5001) : Addr), (1, 5001), (2, 5001)]).foldl registryRemove
        (([(((1, 5001) : Addr), (10 : Handle)), ((2, 5001), 20)]).foldl
          (fun r c => registryInsert r c.1 c.2) []) = [] ∧
    closeAll [] = ([], []) :=
  mcp_c8_registry_lifecycle [(((1, 5001) : Addr), (10 : Handle)), ((2, 5001), 20)]
    [((2, 5001) : Addr), (1, 5001), (2, 5001)] (by decide)

/-- C2: the claimed bind-retry policy never runs.  `MCPServer.start` wraps
its whole body in `try ... except Exception` (lines 33, 56-57), so the
`OSError("Address already in use")` raised by `bind` is caught and logged
inside `start` and never reaches `main`'s `except OSError` retry arm
(lines 179-185).  Whatever ports are occupied, `main` makes exactly one
attempt on port 5001 and returns exit code 0 — it neither retries on the
next port nor exits non-zero when the address is in use. -/
theorem mcp_c2_retry_is_dead_code (portInUse : Nat → Bool) :
    serverMain portInUse = ⟨0, 1, 5001⟩ := by
  simp only [serverMain, mainLoop, serverStart, bindSocket]
  cases hb : portInUse 5001 <;> simp [hb]
